import Mathlib

/-!
Verification of the condition/fulfillment binary decoder (`src/decoding.rs`).

The decoder is embedded shallowly: the external DER tokenizer (`simple_asn1`,
an out-of-scope collaborator of the repository) is modelled at the element
level — a byte buffer is represented by `ByteBuf`, which records either raw
bytes that do not parse under the tokenizer grammar (`ByteBuf.raw`, with the
empty list standing for the empty buffer) or a byte string that the tokenizer
decodes into an ordered sequence of tagged elements (`ByteBuf.enc`).  Rust
`Result` values are embedded as `DResult`, which has a third outcome `panic`
recording an out-of-bounds index (Rust panics are not `Result` errors).
All functions mirror `src/decoding.rs` statement by statement; members of the
repository crate that are not under `src/` (`Condition`, `MIXED_MODE`,
`has_subtypes`, `to_anon`, `internal::unpack_set`) and the external
`libsecp256k1` entry points are modelled from the specification and marked as
such in their doc comments.
-/

/-- Outcome of a Rust function returning `Result<T, ConditionDecodeError>`,
with a third case recording a Rust panic (out-of-bounds index). -/
inductive DResult (α : Type) where
  | ok : α → DResult α
  | err : String → DResult α
  | panic : DResult α
deriving Repr, DecidableEq

def DResult.bind {α β : Type} : DResult α → (α → DResult β) → DResult β
  | .ok a, f => f a
  | .err e, _ => .err e
  | .panic, _ => .panic

def DResult.map {α β : Type} (f : α → β) : DResult α → DResult β
  | .ok a => .ok (f a)
  | .err e => .err e
  | .panic => .panic

/-- Condition type enumeration of the crate (`PreimageType`, ... `AnonType`),
with the numeric ids handled by `condition_type_from_id`. -/
inductive ConditionType where
  | PreimageType
  | PrefixType
  | ThresholdType
  | Secp256k1Type
  | Secp256k1HashType
  | EvalType
  | AnonType
deriving Repr, DecidableEq

/-- Modelled from the spec: the external elliptic-curve library's parsed
public-key value; carried opaquely as the accepted input bytes. -/
structure PubKey where
  bytes : List Nat
deriving Repr, DecidableEq

/-- Modelled from the spec: the external elliptic-curve library's parsed
signature value; carried opaquely as the accepted input bytes. -/
structure Sig where
  bytes : List Nat
deriving Repr, DecidableEq

/-- The crate's `Condition` value (declared at crate level, outside `src/`);
field layout taken from the uses in `src/decoding.rs` and the spec's data
model:  `Preimage`, `Secp256k1` (pubkey + optional signature),
`Secp256k1Hash` (optional pubkey hash + optional pubkey + optional
signature), `Threshold` (count + subconditions), `Eval` (code bytes), and the
compact `Anon` form (type, fingerprint, cost, subtypes). -/
inductive Condition where
  | Preimage (preimage : List Nat)
  | Secp256k1 (pubkey : PubKey) (signature : Option Sig)
  | Secp256k1Hash (pubkey_hash : Option (List Nat)) (pubkey : Option PubKey)
      (signature : Option Sig)
  | Threshold (threshold : Nat) (subconditions : List Condition)
  | Eval (code : List Nat)
  | Anon (cond_type : ConditionType) (fingerprint : List Nat) (cost : Nat)
      (subtypes : List Nat)
deriving Repr

/-- Modelled from the spec: the `MIXED_MODE` bit of the `flags` word (a crate
constant not under `src/`), selecting the non-standard threshold dialect; a
single designated flag bit. -/
def MIXED_MODE : Nat := 1

/-- Modelled from the spec: `has_subtypes` (crate-level method not under
`src/`) is true exactly for the types whose sub-structure can recursively
embed other condition types — Threshold and Prefix. -/
def ConditionType.has_subtypes : ConditionType → Bool
  | .ThresholdType => true
  | .PrefixType => true
  | _ => false

/-- Modelled from the spec: `internal::unpack_set` (crate-internal module not
under `src/`) unpacks a bit-set of condition-type tags from its byte-string
argument; modelled as the list of set bit positions, most significant bit of
each byte first. -/
def unpack_set (bs : List Nat) : List Nat :=
  (List.range (8 * bs.length)).filter
    (fun i => (bs.getD (i / 8) 0) >>> (7 - i % 8) % 2 == 1)

/-- Modelled from the spec: coercion `to_anon` of a condition to its
compact/Anon form (crate-level method not under `src/`).  On an `Anon` value
this is the identity; the spec notes the coercion is a no-op for the
conditions decoded by `parse_condition`, which are the only values it is
applied to in `src/decoding.rs` (see `decode_condition_always_anon`).  For
proof-bearing variants the compact fingerprint derives from external hashing,
modelled opaquely as an empty fingerprint with zero cost and no subtypes. -/
def Condition.to_anon : Condition → Condition
  | .Anon t f c s => .Anon t f c s
  | .Preimage _ => .Anon .PreimageType [] 0 []
  | .Secp256k1 _ _ => .Anon .Secp256k1Type [] 0 []
  | .Secp256k1Hash _ _ _ => .Anon .Secp256k1HashType [] 0 []
  | .Threshold _ _ => .Anon .ThresholdType [] 0 []
  | .Eval _ => .Anon .EvalType [] 0 []

/-- Modelled from the spec: `PublicKey::parse_slice` of the external
elliptic-curve library, with strict validation; modelled as the wire-format
check (33-byte compressed key with prefix 2 or 3, or 65-byte uncompressed key
with prefix 4). -/
def publicKeyParseSlice (bs : List Nat) : Option PubKey :=
  if (bs.length = 33 ∧ (bs.headD 0 = 2 ∨ bs.headD 0 = 3)) ∨
     (bs.length = 65 ∧ bs.headD 0 = 4) then
    some ⟨bs⟩
  else
    none

/-- Modelled from the spec: `Signature::parse_standard_slice` of the external
elliptic-curve library; modelled as the 64-byte raw-signature format check. -/
def signatureParseStandardSlice (bs : List Nat) : Option Sig :=
  if bs.length = 64 then some ⟨bs⟩ else none

/-- Big-endian unsigned interpretation of a byte string. -/
def bytesBEtoNat : List Nat → Nat
  | [] => 0
  | b :: bs => b * 256 ^ bs.length + bytesBEtoNat bs

/-- `BigInt::from_signed_bytes_be`: big-endian two's-complement
interpretation of a byte string. -/
def from_signed_bytes_be (bs : List Nat) : Int :=
  match bs with
  | [] => 0
  | b :: _ =>
    if b < 128 then (bytesBEtoNat bs : Int)
    else (bytesBEtoNat bs : Int) - (256 : Int) ^ bs.length

/-- `BigInt::to_u64`: succeeds exactly on values in the unsigned 64-bit
range. -/
def int_to_u64 (i : Int) : Option Nat :=
  if 0 ≤ i ∧ i < 2 ^ 64 then some i.toNat else none

mutual
/-- A byte buffer, abstracted at the boundary of the external DER tokenizer
(modelled from the spec): `raw bs` is a byte string that the tokenizer does
not decode (the empty list standing for the empty buffer), `enc blocks` is a
byte string that the tokenizer decodes into the element sequence `blocks`. -/
inductive ByteBuf where
  | raw : List Nat → ByteBuf
  | enc : List Asn1Block → ByteBuf

/-- One tokenizer element, as consumed by `Parser::lpop`: `unknown tid buf`
is `ASN1Block::Unknown` with context-specific class, tag `tid` and content
bytes `buf`; `other bs` is any other block shape (matched by the
`unexpected structure2` arm). -/
inductive Asn1Block where
  | unknown : Nat → ByteBuf → Asn1Block
  | other : List Nat → Asn1Block
end

/-- Minimal big-endian byte expansion of a natural number (used only by the
modelled DER serializer below). -/
def natBytesBE (n : Nat) : List Nat :=
  if _h : n < 256 then [n] else natBytesBE (n / 256) ++ [n % 256]
decreasing_by
  exact Nat.div_lt_self (by omega) (by omega)

/-- Modelled from the spec: the DER length octets of a content length. -/
def derLenBytes (n : Nat) : List Nat :=
  if n < 128 then [n] else (128 + (natBytesBE n).length) :: natBytesBE n

/-- Modelled from the spec: the DER identifier octets of a context-specific
primitive element with tag number `tid`. -/
def derTagBytes (tid : Nat) : List Nat :=
  if tid < 31 then [128 + tid]
  else if tid < 128 then [128 + 31, tid]
  else [128 + 31, 128 + tid / 128, tid % 128]

mutual
/-- Modelled from the spec: the byte string that the external tokenizer
decodes into a given element (its DER serialization).  Used only where the
source reads an element's content as raw bytes. -/
def Asn1Block.ser : Asn1Block → List Nat
  | .unknown tid c => derTagBytes tid ++ derLenBytes c.toBytes.length ++ c.toBytes
  | .other bs => bs

/-- The raw bytes of a buffer: raw bytes themselves, or the serialization of
the decoded elements. -/
def ByteBuf.toBytes : ByteBuf → List Nat
  | .raw bs => bs
  | .enc blocks => Asn1Block.serList blocks

def Asn1Block.serList : List Asn1Block → List Nat
  | [] => []
  | b :: bs => b.ser ++ Asn1Block.serList bs
end

/-- `Parser::from_buf` (decoding.rs:46-57): the empty buffer yields an empty
parser; otherwise the buffer must decode under the tokenizer grammar, else
the decode fails with the malformed-input error. -/
def from_buf : ByteBuf → DResult (List Asn1Block)
  | .raw [] => .ok []
  | .raw (_ :: _) => .err "Invalid ASN data1"
  | .enc blocks => .ok blocks

/-- `Parser::lpop` (decoding.rs:76-101): removes the first element; it must
be a context-specific `Unknown` block whose tag fits in a `u8`. -/
def Parser.lpop : List Asn1Block → DResult ((Nat × ByteBuf) × List Asn1Block)
  | [] => .err "Expected element"
  | .unknown tid c :: rest =>
      if 255 < tid then .err "Invalid type id" else .ok ((tid, c), rest)
  | .other _ :: _ => .err "unexpected structure2"

/-- `Parser::buf` (decoding.rs:106-115): pop a leaf and check its tag,
returning its raw content bytes. -/
def Parser.buf (type_id : Nat) (p : List Asn1Block) :
    DResult (List Nat × List Asn1Block) :=
  (Parser.lpop p).bind fun x =>
    if x.1.1 = type_id then .ok (x.1.2.toBytes, x.2)
    else
      .err ("Wrong type id, expected: " ++ toString type_id ++ " but got: " ++
        toString x.1.1)

/-- `Parser::container` (decoding.rs:58-65): pop an element, check its tag,
and re-parse its content bytes into a fresh parser. -/
def Parser.container (type_id : Nat) (p : List Asn1Block) :
    DResult (List Asn1Block × List Asn1Block) :=
  (Parser.lpop p).bind fun x =>
    if x.1.1 = type_id then (from_buf x.1.2).map (fun sub => (sub, x.2))
    else .err "Unexpected identifier in ASN"

/-- `Parser::any` (decoding.rs:102-105): pop an element regardless of tag and
re-parse its content bytes into a fresh parser. -/
def Parser.any (p : List Asn1Block) :
    DResult ((Nat × List Asn1Block) × List Asn1Block) :=
  (Parser.lpop p).bind fun x =>
    (from_buf x.1.2).map (fun sub => ((x.1.1, sub), x.2))

/-- `Parser::end` (decoding.rs:116-121): fails with the leftover-elements
error when elements remain. -/
def Parser.end_ (p : List Asn1Block) : DResult Unit :=
  if p.isEmpty then .ok () else .err "ASN has leftover elements\n"

/-- `condition_type_from_id` (decoding.rs:27-38). -/
def condition_type_from_id (id : Nat) : DResult ConditionType :=
  match id with
  | 0 => .ok .PreimageType
  | 1 => .ok .PrefixType
  | 2 => .ok .ThresholdType
  | 5 => .ok .Secp256k1Type
  | 6 => .ok .Secp256k1HashType
  | 15 => .ok .EvalType
  | 255 => .ok .AnonType
  | _ => .err ("Unknown condition type id: " ++ toString id)

/-- `pad_fingerprint` (decoding.rs:244-258): for `Secp256k1HashType`,
right-pads with zero bytes up to 32 bytes when shorter; all other types pass
through unchanged. -/
def pad_fingerprint (v : List Nat) (cond_type : ConditionType) : List Nat :=
  match cond_type with
  | .Secp256k1HashType =>
      if v.length < 32 then v ++ List.replicate (32 - v.length) 0 else v
  | _ => v

/-- `shrink_fingerprint` (decoding.rs:260-266): slices the first 20 bytes for
`Secp256k1HashType` and the first 32 bytes otherwise; the Rust slice
expression `v[0..n]` panics when the input is shorter than `n`. -/
def shrink_fingerprint (v : List Nat) (cond_type : ConditionType) :
    DResult (List Nat) :=
  match cond_type with
  | .Secp256k1HashType => if v.length < 20 then .panic else .ok (v.take 20)
  | _ => if v.length < 32 then .panic else .ok (v.take 32)

/-- `parse_preimage` (decoding.rs:160-164). -/
def parse_preimage (p : List Asn1Block) :
    DResult (Condition × List Asn1Block) :=
  (Parser.buf 0 p).map (fun x => (.Preimage x.1, x.2))

/-- `parse_secp256k1` (decoding.rs:166-177): reads the pubkey leaf then the
signature leaf, then validates both through the external curve library. -/
def parse_secp256k1 (p : List Asn1Block) :
    DResult (Condition × List Asn1Block) :=
  (Parser.buf 0 p).bind fun x =>
  (Parser.buf 1 x.2).bind fun y =>
  match publicKeyParseSlice x.1, signatureParseStandardSlice y.1 with
  | some pubkey, some sig => .ok (.Secp256k1 pubkey (some sig), y.2)
  | _, _ => .err "Bad ASN1 secp256k1"

/-- `parse_secp256k1hash` (decoding.rs:180-193): same layout as
`parse_secp256k1` but builds the `Secp256k1Hash` variant with the pubkey hash
left unset. -/
def parse_secp256k1hash (p : List Asn1Block) :
    DResult (Condition × List Asn1Block) :=
  (Parser.buf 0 p).bind fun x =>
  (Parser.buf 1 x.2).bind fun y =>
  match publicKeyParseSlice x.1, signatureParseStandardSlice y.1 with
  | some pk, some sig => .ok (.Secp256k1Hash none (some pk) (some sig), y.2)
  | _, _ => .err "Bad ASN1 secp256k1hash"

/-- `parse_eval` (decoding.rs:234-238). -/
def parse_eval (p : List Asn1Block) : DResult (Condition × List Asn1Block) :=
  (Parser.buf 0 p).bind fun x =>
  (Parser.end_ x.2).map (fun _ => (.Eval x.1, x.2))

/-- `parse_condition` (decoding.rs:139-158): pops the typed element from the
outer parser, resolves the type id, asserts the outer parser empty, then
reads fingerprint, cost, and (for subtype-bearing types) the subtype set from
the inner parser, asserting it empty at the end. -/
def parse_condition (tp : List Asn1Block) (_flags : Nat) :
    DResult (Condition × List Asn1Block) :=
  (Parser.any tp).bind fun a =>
  (condition_type_from_id a.1.1).bind fun cond_type =>
  (Parser.end_ a.2).bind fun _ =>
  (Parser.buf 0 a.1.2).bind fun f =>
  let fingerprint := pad_fingerprint f.1 cond_type
  (Parser.buf 1 f.2).bind fun k =>
  match int_to_u64 (from_signed_bytes_be k.1) with
  | none => .err "Can't decode cost"
  | some cost =>
    (match cond_type.has_subtypes with
     | true =>
         (Parser.buf 2 k.2).map
           (fun (s : List Nat × List Asn1Block) => (unpack_set s.1, s.2))
     | false => .ok (([] : List Nat), k.2)).bind fun s =>
    (Parser.end_ s.2).bind fun _ =>
    .ok (.Anon cond_type fingerprint cost s.1, a.2)

theorem DResult.bind_ok {α β : Type} {x : DResult α} {f : α → DResult β}
    {b : β} (h : x.bind f = .ok b) : ∃ a, x = .ok a ∧ f a = .ok b := by
  cases x with
  | ok a => exact ⟨a, rfl, h⟩
  | err e => simp [DResult.bind] at h
  | panic => simp [DResult.bind] at h

theorem DResult.map_ok {α β : Type} {x : DResult α} {f : α → β} {b : β}
    (h : x.map f = .ok b) : ∃ a, x = .ok a ∧ f a = b := by
  cases x with
  | ok a => exact ⟨a, rfl, by simpa [DResult.map] using h⟩
  | err e => simp [DResult.map] at h
  | panic => simp [DResult.map] at h

theorem Parser.end_ok {p : List Asn1Block} {u : Unit}
    (h : Parser.end_ p = .ok u) : p = [] := by
  unfold Parser.end_ at h
  split at h
  case isTrue hp => simpa using hp
  case isFalse => simp at h

/-- A successful `parse_condition` always leaves its outer parser empty: the
source asserts `top_parser.end()` right after popping the typed element
(decoding.rs:142). -/
theorem parse_condition_ok_rest {tp : List Asn1Block} {flags : Nat}
    {c : Condition} {rest : List Asn1Block}
    (h : parse_condition tp flags = .ok (c, rest)) : rest = [] := by
  unfold parse_condition at h
  obtain ⟨a, ha, h⟩ := DResult.bind_ok h
  obtain ⟨ct, hct, h⟩ := DResult.bind_ok h
  obtain ⟨u, hu, h⟩ := DResult.bind_ok h
  obtain ⟨f, hf, h⟩ := DResult.bind_ok h
  obtain ⟨k, hk, h⟩ := DResult.bind_ok h
  rcases hc : int_to_u64 (from_signed_bytes_be k.1) with _ | cost <;>
    rw [hc] at h
  · simp at h
  · obtain ⟨s, hs, h⟩ := DResult.bind_ok h
    obtain ⟨v, hv, h⟩ := DResult.bind_ok h
    injection h with h2
    injection h2 with hcond hrest
    exact hrest ▸ Parser.end_ok hu

/-- `Parser::many` applied to `parse_condition` (decoding.rs:66-75 together
with decoding.rs:139-158): the loop repeatedly applies `parse_condition` to
the same parser until it is exhausted, continuing from the parser state each
call leaves behind. -/
def many_conditions (p : List Asn1Block) (flags : Nat) :
    DResult (List Condition) :=
  match p with
  | [] => .ok []
  | a :: l =>
    match h : parse_condition (a :: l) flags with
    | .ok x => (many_conditions x.2 flags).map (fun cs => x.1 :: cs)
    | .err e => .err e
    | .panic => .panic
termination_by sizeOf p
decreasing_by
  have hx : x.2 = [] := parse_condition_ok_rest (by rw [h])
  have hpos : 0 < sizeOf b := by cases b <;> simp_arith
  simp [hx]
  omega

theorem from_buf_size {c : ByteBuf} {inner : List Asn1Block}
    (h : from_buf c = .ok inner) : sizeOf inner < sizeOf c := by
  cases c with
  | raw bs =>
    cases bs with
    | nil =>
      injection h with h1
      subst h1
      simp_arith
    | cons a l => simp [from_buf] at h
  | enc blocks =>
    injection h with h1
    subst h1
    simp_arith

theorem lpop_size {p : List Asn1Block} {x : (Nat × ByteBuf) × List Asn1Block}
    (h : Parser.lpop p = .ok x) :
    sizeOf x.1.2 < sizeOf p ∧ sizeOf x.2 < sizeOf p := by
  cases p with
  | nil => simp [Parser.lpop] at h
  | cons b l =>
    cases b with
    | unknown tid cc =>
      simp only [Parser.lpop] at h
      split at h
      · simp at h
      · injection h with h1
        subst h1
        constructor <;> simp_arith
    | other bs => simp [Parser.lpop] at h

theorem container_size {tid : Nat} {p : List Asn1Block}
    {s : List Asn1Block × List Asn1Block}
    (h : Parser.container tid p = .ok s) :
    sizeOf s.1 < sizeOf p ∧ sizeOf s.2 < sizeOf p := by
  unfold Parser.container at h
  obtain ⟨x, hx, h⟩ := DResult.bind_ok h
  split at h
  · obtain ⟨sub, hsub, heq⟩ := DResult.map_ok h
    obtain ⟨h1, h2⟩ := lpop_size hx
    have h3 := from_buf_size hsub
    subst heq
    exact ⟨lt_trans h3 h1, h2⟩
  · simp at h

/-- The tail of `parse_threshold_mixed` (decoding.rs:212-231) once both
sequences are decoded and the outer parser is checked empty: the empty-list
check, the sentinel match with the panicking `preimage[0]` index, the range
check on the threshold value, and the assembly of the remaining fulfillments
with the `to_anon`-coerced conditions.  `rest` is the (empty) parser state
the enclosing call returns. -/
def threshold_mixed_tail (ffills conds : List Condition)
    (rest : List Asn1Block) : DResult (Condition × List Asn1Block) :=
  match ffills with
  | [] => .err "no fulfillments"
  | f0 :: frest =>
    match f0 with
    | .Preimage pre =>
      match pre with
      | [] => .panic
      | t :: _ =>
        if frest.length + conds.length < t then
          .err "incorrect mixed mode threshold value"
        else
          .ok (.Threshold t (frest ++ conds.map Condition.to_anon), rest)
    | _ => .err "incorrect mixed mode threshold condition"

mutual
/-- The body of `parse_fulfillment` (decoding.rs:124-137) after `any()` has
popped one element: re-parses the element content, dispatches on the outer
tag to the five type-specific decoders, and asserts the inner parser empty
afterwards. -/
def parse_fulfillment_block (b : Asn1Block) (flags : Nat) : DResult Condition :=
  match b with
  | .other _ => .err "unexpected structure2"
  | .unknown tid c =>
    if 255 < tid then .err "Invalid type id"
    else
      match hfb : from_buf c with
      | .err e => .err e
      | .panic => .panic
      | .ok inner =>
        (parse_fulfillment_dispatch tid inner flags).bind
          fun x => (Parser.end_ x.2).map (fun _ => x.1)
termination_by 2 * sizeOf b
decreasing_by
  have := from_buf_size hfb
  simp_arith
  omega

/-- The five-way dispatch of `parse_fulfillment` (decoding.rs:127-134) on the
outer tag. -/
def parse_fulfillment_dispatch (tid : Nat) (p : List Asn1Block)
    (flags : Nat) : DResult (Condition × List Asn1Block) :=
  match tid with
  | 0 => parse_preimage p
  | 2 => parse_threshold p flags
  | 5 => parse_secp256k1 p
  | 6 => parse_secp256k1hash p
  | 15 => parse_eval p
  | _ => .err "Invalid Condition ASN"
termination_by 2 * sizeOf p + 2
decreasing_by
  omega

/-- `parse_threshold` (decoding.rs:195-206), standard dialect: container
tag 0 holds the fulfillments, container tag 1 the compact conditions; the
count is the number of fulfillments (`as u16`) and the sub-sequence is
fulfillments followed by conditions. -/
def parse_threshold (p : List Asn1Block) (flags : Nat) :
    DResult (Condition × List Asn1Block) :=
  if flags &&& MIXED_MODE ≠ 0 then parse_threshold_mixed p flags
  else
    match hc0 : Parser.container 0 p with
    | .err e => .err e
    | .panic => .panic
    | .ok s0 =>
      match many_fulfillments s0.1 flags with
      | .err e => .err e
      | .panic => .panic
      | .ok ffills =>
        match hc1 : Parser.container 1 s0.2 with
        | .err e => .err e
        | .panic => .panic
        | .ok s1 =>
          (many_conditions s1.1 flags).bind fun conds =>
          (Parser.end_ s1.2).bind fun _ =>
          .ok (.Threshold (ffills.length % 65536) (ffills ++ conds), s1.2)
termination_by 2 * sizeOf p + 1
decreasing_by
  · omega
  · have := (container_size hc0).1
    omega

/-- `parse_threshold_mixed` (decoding.rs:208-232), mixed-mode dialect: after
reading both containers and asserting the outer parser empty, the fulfillment
list must be non-empty, its head must be a `Preimage` whose first content
byte is the threshold count `t` (the Rust index `preimage[0]` panics on an
empty preimage), `t` must not exceed remaining fulfillments plus conditions,
and the sub-sequence is the remaining fulfillments followed by the conditions
coerced through `to_anon`. -/
def parse_threshold_mixed (p : List Asn1Block) (flags : Nat) :
    DResult (Condition × List Asn1Block) :=
  match hc0 : Parser.container 0 p with
  | .err e => .err e
  | .panic => .panic
  | .ok s0 =>
    match many_fulfillments s0.1 flags with
    | .err e => .err e
    | .panic => .panic
    | .ok ffills =>
      match hc1 : Parser.container 1 s0.2 with
      | .err e => .err e
      | .panic => .panic
      | .ok s1 =>
        (many_conditions s1.1 flags).bind fun conds =>
        (Parser.end_ s1.2).bind fun _ =>
        threshold_mixed_tail ffills conds s1.2
termination_by 2 * sizeOf p
decreasing_by
  have := (container_size hc0).1
  omega

/-- `Parser::many` applied to `parse_fulfillment` (decoding.rs:66-75 together
with decoding.rs:124-137): each call pops exactly the head element, so the
loop decodes the elements in order until the parser is exhausted. -/
def many_fulfillments (p : List Asn1Block) (flags : Nat) :
    DResult (List Condition) :=
  match p with
  | [] => .ok []
  | b :: rest =>
    (parse_fulfillment_block b flags).bind fun c =>
    (many_fulfillments rest flags).map (fun cs => c :: cs)
termination_by 2 * sizeOf p
decreasing_by
  all_goals simp_arith <;> omega
end

/-- `parse_fulfillment` (decoding.rs:124-137): `any()` pops the head element
(consuming it even when the element itself fails to parse) and the body
dispatches on its tag. -/
def parse_fulfillment (p : List Asn1Block) (flags : Nat) :
    DResult (Condition × List Asn1Block) :=
  match p with
  | [] => .err "Expected element"
  | b :: rest => (parse_fulfillment_block b flags).map (fun c => (c, rest))

/-- `decode_fulfillment` (decoding.rs:15-20): builds the parser, runs
`parse_fulfillment` without propagating its outcome, checks `p.end()` on the
state the parse left behind ( the head element is consumed whenever one
exists), and only then returns the parse outcome; a panic raised inside the
parse aborts before the end check. -/
def decode_fulfillment (buf : ByteBuf) (flags : Nat) : DResult Condition :=
  match from_buf buf with
  | .err e => .err e
  | .panic => .panic
  | .ok [] => .err "Expected element"
  | .ok (b :: rest) =>
    match parse_fulfillment_block b flags with
    | .panic => .panic
    | o => if rest.isEmpty then o else .err "ASN has leftover elements\n"

/-- `decode_condition` (decoding.rs:22-24). -/
def decode_condition (buf : ByteBuf) : DResult Condition :=
  (from_buf buf).bind fun blocks =>
  (parse_condition blocks 0).map (fun x => x.1)

/-- The canonical fingerprint width of a condition type, as stated by the
spec: 20 bytes for `Secp256k1HashType`, 32 bytes for every other type. -/
def canonicalWidth : ConditionType → Nat
  | .Secp256k1HashType => 20
  | _ => 32

/-- A one-element preimage fulfillment: tag 0, content a single leaf (tag 0)
holding the byte 7. -/
def preimageFulfillmentBlock : Asn1Block :=
  .unknown 0 (.enc [.unknown 0 (.raw [7])])

/-- A compact preimage-type condition: tag 0, content fingerprint leaf
(tag 0, byte 1) and cost leaf (tag 1, byte 5). -/
def compactConditionBlock : Asn1Block :=
  .unknown 0 (.enc [.unknown 0 (.raw [1]), .unknown 1 (.raw [5])])

/-- A standard-dialect threshold buffer whose container tag 0 holds two
decodable fulfillments and whose container tag 1 holds three decodable
compact conditions — the n = 2, m = 3 instance named by claim C1. -/
def thresholdTwoThreeBuf : ByteBuf :=
  .enc [.unknown 2 (.enc
    [.unknown 0 (.enc [preimageFulfillmentBlock, preimageFulfillmentBlock]),
     .unknown 1 (.enc [compactConditionBlock, compactConditionBlock,
       compactConditionBlock])])]

example :
    decode_fulfillment (.enc [.unknown 0 (.enc [.unknown 0 (.raw [7])])]) 0 =
      .ok (.Preimage [7]) := by
  simp [decode_fulfillment, parse_fulfillment_block,
    parse_fulfillment_dispatch, from_buf, parse_preimage,
    Parser.buf, Parser.lpop, Parser.end_, DResult.bind, DResult.map,
    ByteBuf.toBytes]

example :
    decode_condition
      (.enc [.unknown 0 (.enc [.unknown 0 (.raw [1]), .unknown 1 (.raw [5])])]) =
      .ok (.Anon .PreimageType [1] 5 []) := by
  simp [decode_condition, parse_condition, from_buf, Parser.any, Parser.buf,
    Parser.lpop, Parser.end_, DResult.bind, DResult.map, ByteBuf.toBytes,
    condition_type_from_id, pad_fingerprint, from_signed_bytes_be,
    int_to_u64, bytesBEtoNat, ConditionType.has_subtypes]

/-- Claim C6: for every condition type `t` and every fingerprint `f` whose
length is the canonical width for `t` (20 bytes for `Secp256k1HashType`,
32 bytes for every other type), padding the shrunken fingerprint gives the
same bytes as padding the original:
`pad_fingerprint (shrink_fingerprint f t) t = pad_fingerprint f t` (with
`shrink_fingerprint` succeeding, i.e. not hitting its out-of-bounds
slice). -/
theorem C6_pad_shrink_roundtrip (f : List Nat) (t : ConditionType)
    (h : f.length = canonicalWidth t) :
    (shrink_fingerprint f t).map (fun v => pad_fingerprint v t) =
      .ok (pad_fingerprint f t) := by
  have htake20 : f.length = 20 → f.take 20 = f := by
    intro hl
    rw [← hl]
    exact List.take_length f
  have htake32 : f.length = 32 → f.take 32 = f := by
    intro hl
    rw [← hl]
    exact List.take_length f
  cases t <;>
    first
    | (simp [canonicalWidth] at h
       simp [shrink_fingerprint, DResult.map, h, htake20 h])
    | (simp [canonicalWidth] at h
       simp [shrink_fingerprint, DResult.map, h, htake32 h])

/-- Witness for C6 at a concrete canonical-width fingerprint of each kind. -/
theorem C6_pad_shrink_roundtrip_witness :
    (shrink_fingerprint (List.replicate 20 3) .Secp256k1HashType).map
        (fun v => pad_fingerprint v .Secp256k1HashType) =
      .ok (pad_fingerprint (List.replicate 20 3) .Secp256k1HashType) ∧
    (shrink_fingerprint (List.replicate 32 7) .PreimageType).map
        (fun v => pad_fingerprint v .PreimageType) =
      .ok (pad_fingerprint (List.replicate 32 7) .PreimageType) :=
  ⟨C6_pad_shrink_roundtrip (List.replicate 20 3) .Secp256k1HashType
     (by decide),
   C6_pad_shrink_roundtrip (List.replicate 32 7) .PreimageType (by decide)⟩

/-- Claim C10: `shrink_fingerprint` panics (out-of-bounds slice) exactly when
its input is shorter than the truncation width — 20 bytes for
`Secp256k1HashType`, 32 bytes for every other condition type — and succeeds
otherwise; and `pad_fingerprint` for `Secp256k1HashType` never truncates an
input of 32 bytes or more. -/
theorem C10_shrink_short_input_panics :
    (∀ (v : List Nat) (t : ConditionType),
       v.length < canonicalWidth t → shrink_fingerprint v t = .panic) ∧
    (∀ (v : List Nat) (t : ConditionType),
       canonicalWidth t ≤ v.length →
         shrink_fingerprint v t = .ok (v.take (canonicalWidth t))) ∧
    (∀ v : List Nat,
       32 ≤ v.length → pad_fingerprint v .Secp256k1HashType = v) := by
  refine ⟨fun v t h => ?_, fun v t h => ?_, fun v h => ?_⟩
  · cases t <;> simp_all [shrink_fingerprint, canonicalWidth]
  · cases t <;> simp_all [shrink_fingerprint, canonicalWidth]
  · simp [pad_fingerprint]
    omega

/-- Witness for C10 at concrete inputs: a 3-byte fingerprint panics for both
widths, a full-width fingerprint succeeds, and a 33-byte fingerprint passes
through `pad_fingerprint` untouched. -/
theorem C10_shrink_short_input_panics_witness :
    shrink_fingerprint [1, 2, 3] .Secp256k1HashType = .panic ∧
    shrink_fingerprint [1, 2, 3] .PreimageType = .panic ∧
    shrink_fingerprint (List.replicate 20 9) .Secp256k1HashType =
      .ok ((List.replicate 20 9).take 20) ∧
    pad_fingerprint (List.replicate 33 1) .Secp256k1HashType =
      List.replicate 33 1 :=
  ⟨C10_shrink_short_input_panics.1 [1, 2, 3] .Secp256k1HashType (by decide),
   C10_shrink_short_input_panics.1 [1, 2, 3] .PreimageType (by decide),
   C10_shrink_short_input_panics.2.1 (List.replicate 20 9) .Secp256k1HashType
     (by decide),
   C10_shrink_short_input_panics.2.2 (List.replicate 33 1) (by decide)⟩

/-- A successful `parse_condition` always produces an `Anon` value: every
`Ok` path of decoding.rs:139-158 ends in the `Anon { .. }` constructor. -/
theorem parse_condition_ok_anon {tp : List Asn1Block} {flags : Nat}
    {x : Condition × List Asn1Block}
    (h : parse_condition tp flags = .ok x) :
    ∃ t f k s, x.1 = .Anon t f k s := by
  unfold parse_condition at h
  obtain ⟨a, ha, h⟩ := DResult.bind_ok h
  obtain ⟨ct, hct, h⟩ := DResult.bind_ok h
  obtain ⟨u, hu, h⟩ := DResult.bind_ok h
  obtain ⟨f, hf, h⟩ := DResult.bind_ok h
  obtain ⟨k, hk, h⟩ := DResult.bind_ok h
  rcases hc : int_to_u64 (from_signed_bytes_be k.1) with _ | cost <;>
    rw [hc] at h
  · simp at h
  · obtain ⟨s, hs, h⟩ := DResult.bind_ok h
    obtain ⟨v, hv, h⟩ := DResult.bind_ok h
    injection h with h2
    exact ⟨ct, pad_fingerprint f.1 ct, cost, s.1, by rw [← h2]⟩

/-- Claim C5: whenever `decode_condition` returns successfully, the result is
the `Anon` variant; it never returns a fulfillment-bearing variant. -/
theorem C5_decode_condition_always_anon (buf : ByteBuf) (c : Condition)
    (h : decode_condition buf = .ok c) :
    ∃ t f k s, c = .Anon t f k s := by
  unfold decode_condition at h
  obtain ⟨blocks, hb, h⟩ := DResult.bind_ok h
  obtain ⟨x, hx, h⟩ := DResult.map_ok h
  subst h
  exact parse_condition_ok_anon hx

/-- Witness for C5: a concrete compact preimage condition decodes to `Anon`.  -/
theorem C5_decode_condition_always_anon_witness :
    ∃ t f k s,
      (Condition.Anon .PreimageType [1] 5 []) = Condition.Anon t f k s :=
  C5_decode_condition_always_anon
    (.enc [.unknown 0 (.enc [.unknown 0 (.raw [1]), .unknown 1 (.raw [5])])])
    (.Anon .PreimageType [1] 5 [])
    (by simp [decode_condition, parse_condition, from_buf, Parser.any,
      Parser.buf, Parser.lpop, Parser.end_, DResult.bind, DResult.map,
      ByteBuf.toBytes, condition_type_from_id, pad_fingerprint,
      from_signed_bytes_be, int_to_u64, bytesBEtoNat,
      ConditionType.has_subtypes])

/-- Claim C4: any buffer accepted by `decode_fulfillment` consists of exactly
one tokenizer element, and extending the element sequence of that buffer by
any trailing element makes `decode_fulfillment` fail with the
leftover-elements error, whichever fulfillment type the buffer encodes.
(The external tokenizer is modelled at the element level, so a trailing byte
that extends the token stream is modelled as a trailing element.) -/
theorem C4_trailing_element_leftover (buf : ByteBuf) (flags : Nat)
    (c : Condition) (h : decode_fulfillment buf flags = .ok c) :
    ∃ blocks, buf = .enc blocks ∧
      ∀ x : Asn1Block,
        decode_fulfillment (.enc (blocks ++ [x])) flags =
          .err "ASN has leftover elements\n" := by
  cases buf with
  | raw bs =>
    cases bs with
    | nil => simp [decode_fulfillment, from_buf] at h
    | cons a l => simp [decode_fulfillment, from_buf] at h
  | enc blocks =>
    cases blocks with
    | nil => simp [decode_fulfillment, from_buf] at h
    | cons b rest =>
      refine ⟨b :: rest, rfl, fun x => ?_⟩
      have hb : parse_fulfillment_block b flags = .ok c ∧ rest = [] := by
        rcases hpb : parse_fulfillment_block b flags with v | e | _ <;>
          rw [decode_fulfillment] at h <;>
          simp only [from_buf, hpb] at h
        · rcases hrest : rest with _ | ⟨r, rs⟩ <;> rw [hrest] at h <;>
            simp_all
        · rcases hrest : rest with _ | ⟨r, rs⟩ <;> rw [hrest] at h <;>
            simp_all
        · simp at h
      obtain ⟨hok, hrest⟩ := hb
      subst hrest
      rw [decode_fulfillment]
      simp only [from_buf, List.cons_append, List.nil_append, hok]
      simp

/-- Witness for C4: the single-element preimage fulfillment buffer is
accepted, so appending any element triggers the leftover-elements error. -/
theorem C4_trailing_element_leftover_witness :
    ∃ blocks,
      (ByteBuf.enc [.unknown 0 (.enc [.unknown 0 (.raw [7])])]) =
        .enc blocks ∧
      ∀ x : Asn1Block,
        decode_fulfillment (.enc (blocks ++ [x])) 0 =
          .err "ASN has leftover elements\n" :=
  C4_trailing_element_leftover
    (.enc [.unknown 0 (.enc [.unknown 0 (.raw [7])])]) 0 (.Preimage [7])
    (by simp [decode_fulfillment, parse_fulfillment_block,
    parse_fulfillment_dispatch, from_buf,
      parse_preimage, Parser.buf, Parser.lpop, Parser.end_, DResult.bind,
      DResult.map, ByteBuf.toBytes])

/-- On a single-element buffer `decode_fulfillment` returns exactly the
outcome of parsing that element (the end check succeeds on the empty
remainder, and a panic propagates unchanged). -/
theorem decode_fulfillment_single (b : Asn1Block) (flags : Nat) :
    decode_fulfillment (.enc [b]) flags = parse_fulfillment_block b flags := by
  rcases hb : parse_fulfillment_block b flags with v | e | _ <;>
    simp [decode_fulfillment, from_buf, hb]

/-- Unfolding `parse_fulfillment_block` on a threshold-tagged element whose
content re-parses successfully. -/
theorem parse_fulfillment_block_threshold {cb : ByteBuf}
    {inner : List Asn1Block} (flags : Nat) (hi : from_buf cb = .ok inner) :
    parse_fulfillment_block (.unknown 2 cb) flags =
      (parse_threshold inner flags).bind
        (fun x => (Parser.end_ x.2).map (fun _ => x.1)) := by
  unfold parse_fulfillment_block
  rw [if_neg (by omega : ¬ 255 < 2)]
  split
  · rename_i e he
    rw [hi] at he
    simp at he
  · rename_i he
    rw [hi] at he
    simp at he
  · rename_i inner2 he
    rw [hi] at he
    injection he with he2
    subst he2
    simp [parse_fulfillment_dispatch]

/-- With the `MIXED_MODE` bit set, `parse_threshold` delegates to
`parse_threshold_mixed` (decoding.rs:196). -/
theorem parse_threshold_of_mixed {p : List Asn1Block} {flags : Nat}
    (hm : flags &&& MIXED_MODE ≠ 0) :
    parse_threshold p flags = parse_threshold_mixed p flags := by
  unfold parse_threshold
  simp [hm]

/-- Forward evaluation of `parse_threshold_mixed` once both containers, both
sequences and the end check are known. -/
theorem parse_threshold_mixed_eval {p : List Asn1Block} {flags : Nat}
    {s0 s1 : List Asn1Block × List Asn1Block} {ffills conds : List Condition}
    (h0 : Parser.container 0 p = .ok s0)
    (h1 : many_fulfillments s0.1 flags = .ok ffills)
    (h2 : Parser.container 1 s0.2 = .ok s1)
    (h3 : many_conditions s1.1 flags = .ok conds)
    (h4 : s1.2 = []) :
    parse_threshold_mixed p flags = threshold_mixed_tail ffills conds [] := by
  unfold parse_threshold_mixed
  split
  · rename_i e he
    rw [h0] at he
    simp at he
  · rename_i he
    rw [h0] at he
    simp at he
  · rename_i s0x he
    rw [h0] at he
    injection he with he2
    subst he2
    rw [h1]
    split
    · rename_i e he1
      simp at he1
    · rename_i he1
      simp at he1
    · rename_i ffx he1
      injection he1 with he1b
      subst he1b
      split
      · rename_i e he2
        rw [h2] at he2
        simp at he2
      · rename_i he2
        rw [h2] at he2
        simp at he2
      · rename_i s1x he2
        rw [h2] at he2
        injection he2 with he3
        subst he3
        rw [h3, h4]
        simp [DResult.bind, Parser.end_]

/-- Forward evaluation of the standard threshold dialect. -/
theorem parse_threshold_standard_eval {p : List Asn1Block} {flags : Nat}
    {s0 s1 : List Asn1Block × List Asn1Block} {ffills conds : List Condition}
    (hm : flags &&& MIXED_MODE = 0)
    (h0 : Parser.container 0 p = .ok s0)
    (h1 : many_fulfillments s0.1 flags = .ok ffills)
    (h2 : Parser.container 1 s0.2 = .ok s1)
    (h3 : many_conditions s1.1 flags = .ok conds)
    (h4 : s1.2 = []) :
    parse_threshold p flags =
      .ok (.Threshold (ffills.length % 65536) (ffills ++ conds), []) := by
  unfold parse_threshold
  rw [if_neg (by simp [hm])]
  split
  · rename_i e he
    rw [h0] at he
    simp at he
  · rename_i he
    rw [h0] at he
    simp at he
  · rename_i s0x he
    rw [h0] at he
    injection he with he2
    subst he2
    rw [h1]
    split
    · rename_i e he1
      simp at he1
    · rename_i he1
      simp at he1
    · rename_i ffx he1
      injection he1 with he1b
      subst he1b
      split
      · rename_i e he2
        rw [h2] at he2
        simp at he2
      · rename_i he2
        rw [h2] at he2
        simp at he2
      · rename_i s1x he2
        rw [h2] at he2
        injection he2 with he3
        subst he3
        rw [h3, h4]
        simp [DResult.bind, Parser.end_]

/-- Inversion of a successful `threshold_mixed_tail`: the fulfillment list
must start with a `Preimage` with a non-empty byte sequence, the first byte
is the count and passes the range check, and the result is assembled from the
remaining fulfillments and the coerced conditions. -/
theorem threshold_mixed_tail_ok {ffills conds : List Condition}
    {rest : List Asn1Block} {x : Condition × List Asn1Block}
    (h : threshold_mixed_tail ffills conds rest = .ok x) :
    ∃ t pre, ffills.head? = some (.Preimage (t :: pre)) ∧
      t ≤ ffills.tail.length + conds.length ∧
      x = (.Threshold t (ffills.tail ++ conds.map Condition.to_anon), rest) := by
  cases ffills with
  | nil => simp [threshold_mixed_tail] at h
  | cons f0 frest =>
    cases f0 with
    | Preimage pre =>
      cases pre with
      | nil => simp [threshold_mixed_tail] at h
      | cons t tl =>
        simp only [threshold_mixed_tail] at h
        split at h
        · simp at h
        · rename_i hle
          injection h with h2
          exact ⟨t, tl, by simp, by simp only [List.tail_cons]; omega,
            h2.symm⟩
    | Secp256k1 pk sg => simp [threshold_mixed_tail] at h
    | Secp256k1Hash ph pk sg => simp [threshold_mixed_tail] at h
    | Threshold tt ss => simp [threshold_mixed_tail] at h
    | Eval code => simp [threshold_mixed_tail] at h
    | Anon a1 a2 a3 a4 => simp [threshold_mixed_tail] at h

/-- Inversion of a successful `parse_threshold_mixed`: both containers and
both sequences decoded, the outer parser was empty, and the tail assembly
succeeded. -/
theorem parse_threshold_mixed_ok {p : List Asn1Block} {flags : Nat}
    {x : Condition × List Asn1Block}
    (h : parse_threshold_mixed p flags = .ok x) :
    ∃ s0 ffills s1 conds,
      Parser.container 0 p = .ok s0 ∧
      many_fulfillments s0.1 flags = .ok ffills ∧
      Parser.container 1 s0.2 = .ok s1 ∧
      many_conditions s1.1 flags = .ok conds ∧
      s1.2 = [] ∧
      threshold_mixed_tail ffills conds s1.2 = .ok x := by
  unfold parse_threshold_mixed at h
  split at h
  · simp at h
  · simp at h
  · rename_i s0 hc0
    split at h
    · simp at h
    · simp at h
    · rename_i ffills hmf
      split at h
      · simp at h
      · simp at h
      · rename_i s1 hc1
        obtain ⟨conds, hconds, h⟩ := DResult.bind_ok h
        obtain ⟨u, hu, h⟩ := DResult.bind_ok h
        exact ⟨s0, ffills, s1, conds, hc0, hmf, hc1, hconds,
          Parser.end_ok hu, h⟩

theorem parse_preimage_ok {p : List Asn1Block}
    {x : Condition × List Asn1Block} (h : parse_preimage p = .ok x) :
    ∃ bs, x.1 = .Preimage bs := by
  unfold parse_preimage at h
  obtain ⟨a, ha, h⟩ := DResult.map_ok h
  exact ⟨a.1, by rw [← h]⟩

theorem parse_secp256k1_ok {p : List Asn1Block}
    {x : Condition × List Asn1Block} (h : parse_secp256k1 p = .ok x) :
    ∃ pk sg, x.1 = .Secp256k1 pk (some sg) := by
  unfold parse_secp256k1 at h
  obtain ⟨a, ha, h⟩ := DResult.bind_ok h
  obtain ⟨b, hb, h⟩ := DResult.bind_ok h
  split at h
  · rename_i pk sg hpk hsg
    injection h with h2
    exact ⟨pk, sg, by rw [← h2]⟩
  · simp at h

theorem parse_secp256k1hash_ok {p : List Asn1Block}
    {x : Condition × List Asn1Block} (h : parse_secp256k1hash p = .ok x) :
    ∃ pk sg, x.1 = .Secp256k1Hash none (some pk) (some sg) := by
  unfold parse_secp256k1hash at h
  obtain ⟨a, ha, h⟩ := DResult.bind_ok h
  obtain ⟨b, hb, h⟩ := DResult.bind_ok h
  split at h
  · rename_i pk sg hpk hsg
    injection h with h2
    exact ⟨pk, sg, by rw [← h2]⟩
  · simp at h

theorem parse_eval_ok {p : List Asn1Block}
    {x : Condition × List Asn1Block} (h : parse_eval p = .ok x) :
    ∃ code, x.1 = .Eval code := by
  unfold parse_eval at h
  obtain ⟨a, ha, h⟩ := DResult.bind_ok h
  obtain ⟨u, hu, h⟩ := DResult.map_ok h
  exact ⟨a.1, by rw [← h]⟩

/-- Any `Threshold` produced by `parse_threshold` (either dialect) has its
count bounded by the length of its subcondition list: the standard dialect
counts the fulfillments it prepends, and the mixed dialect checks the
sentinel byte against the list it assembles. -/
theorem parse_threshold_ok_bound {p : List Asn1Block} {flags : Nat}
    {x : Condition × List Asn1Block} (h : parse_threshold p flags = .ok x) :
    ∀ t subs, x.1 = .Threshold t subs → t ≤ subs.length := by
  intro t subs hx
  unfold parse_threshold at h
  split at h
  · obtain ⟨s0, ffills, s1, conds, hc0, hmf, hc1, hconds, hnil, htail⟩ :=
      parse_threshold_mixed_ok h
    obtain ⟨t2, pre, hhead, hbound, hxeq⟩ := threshold_mixed_tail_ok htail
    rw [hxeq] at hx
    injection hx with ht hsubs
    subst ht
    subst hsubs
    simpa using hbound
  · split at h
    · simp at h
    · simp at h
    · rename_i s0 hc0
      split at h
      · simp at h
      · simp at h
      · rename_i ffills hmf
        split at h
        · simp at h
        · simp at h
        · rename_i s1 hc1
          obtain ⟨conds, hconds, h⟩ := DResult.bind_ok h
          obtain ⟨u, hu, h⟩ := DResult.bind_ok h
          injection h with h2
          rw [← h2] at hx
          injection hx with ht hsubs
          subst ht
          subst hsubs
          calc ffills.length % 65536 ≤ ffills.length := Nat.mod_le _ _
            _ ≤ (ffills ++ conds).length := by simp

/-- A successful `decode_fulfillment` means the buffer tokenized to exactly
one element and that element parsed successfully. -/
theorem decode_fulfillment_ok {buf : ByteBuf} {flags : Nat} {c : Condition}
    (h : decode_fulfillment buf flags = .ok c) :
    ∃ b, buf = .enc [b] ∧ parse_fulfillment_block b flags = .ok c := by
  cases buf with
  | raw bs =>
    cases bs with
    | nil => simp [decode_fulfillment, from_buf] at h
    | cons a l => simp [decode_fulfillment, from_buf] at h
  | enc blocks =>
    cases blocks with
    | nil => simp [decode_fulfillment, from_buf] at h
    | cons b rest =>
      rcases hpb : parse_fulfillment_block b flags with v | e | _ <;>
        rw [decode_fulfillment] at h <;>
        simp only [from_buf, hpb] at h
      · rcases hrest : rest with _ | ⟨r, rs⟩ <;> rw [hrest] at h <;>
          simp_all
      · rcases hrest : rest with _ | ⟨r, rs⟩ <;> rw [hrest] at h <;>
          simp_all
      · simp at h

/-- A fulfillment parse that produces a `Threshold` value went through
`parse_threshold`, so the count bound holds for it. -/
theorem parse_fulfillment_block_threshold_bound {b : Asn1Block} {flags : Nat}
    {t : Nat} {subs : List Condition}
    (h : parse_fulfillment_block b flags = .ok (.Threshold t subs)) :
    t ≤ subs.length := by
  unfold parse_fulfillment_block at h
  cases b with
  | other bs => simp at h
  | unknown tid cb =>
    split at h
    · simp at h
    · split at h
      · simp at h
      · split at h
        · simp at h
        · simp at h
        · rename_i inner hfb
          obtain ⟨x, hx, h2⟩ := DResult.bind_ok h
          obtain ⟨u, hu, h3⟩ := DResult.map_ok h2
          unfold parse_fulfillment_dispatch at hx
          split at hx
          · obtain ⟨bs1, hbs⟩ := parse_preimage_ok hx
            rw [h3] at hbs
            simp at hbs
          · exact parse_threshold_ok_bound hx t subs h3
          · obtain ⟨pk, sg, hpk⟩ := parse_secp256k1_ok hx
            rw [h3] at hpk
            simp at hpk
          · obtain ⟨pk, sg, hpk⟩ := parse_secp256k1hash_ok hx
            rw [h3] at hpk
            simp at hpk
          · obtain ⟨code, hcode⟩ := parse_eval_ok hx
            rw [h3] at hcode
            simp at hcode
          · simp at hx

/-- Claim C7: every `Threshold` value successfully returned by
`decode_fulfillment`, under either dialect, has its threshold count bounded
by the length of its subcondition sequence. -/
theorem C7_threshold_count_le_subconditions (buf : ByteBuf) (flags t : Nat)
    (subs : List Condition)
    (h : decode_fulfillment buf flags = .ok (.Threshold t subs)) :
    t ≤ subs.length := by
  obtain ⟨b, hbuf, hb⟩ := decode_fulfillment_ok h
  exact parse_fulfillment_block_threshold_bound hb

/-- Witness for C7: a standard-dialect threshold with two fulfillments and
one condition has count 2 and three subconditions. -/
theorem C7_threshold_count_le_subconditions_witness :
    2 ≤ [Condition.Preimage [7], Condition.Preimage [7],
      Condition.Anon .PreimageType [1] 5 []].length :=
  C7_threshold_count_le_subconditions
    (.enc [.unknown 2 (.enc
      [.unknown 0 (.enc [.unknown 0 (.enc [.unknown 0 (.raw [7])]),
        .unknown 0 (.enc [.unknown 0 (.raw [7])])]),
       .unknown 1 (.enc [.unknown 0 (.enc [.unknown 0 (.raw [1]),
         .unknown 1 (.raw [5])])])])]) 0 2
    [Condition.Preimage [7], Condition.Preimage [7],
      Condition.Anon .PreimageType [1] 5 []]
    (by simp [decode_fulfillment, parse_fulfillment_block,
    parse_fulfillment_dispatch, parse_threshold,
      parse_threshold_mixed, many_fulfillments, many_conditions,
      parse_condition, parse_preimage, from_buf, Parser.any, Parser.buf,
      Parser.lpop, Parser.end_, Parser.container, DResult.bind, DResult.map,
      ByteBuf.toBytes, condition_type_from_id, pad_fingerprint,
      from_signed_bytes_be, int_to_u64, bytesBEtoNat,
      ConditionType.has_subtypes, MIXED_MODE, unpack_set])

/-- Full unfolding of `parse_fulfillment_block` on a threshold-tagged
element, for any tokenizer outcome on the content bytes. -/
theorem parse_fulfillment_block_unknown2 (cb : ByteBuf) (flags : Nat) :
    parse_fulfillment_block (.unknown 2 cb) flags =
      (from_buf cb).bind fun inner =>
        (parse_threshold inner flags).bind fun x =>
          (Parser.end_ x.2).map fun _ => x.1 := by
  unfold parse_fulfillment_block
  rw [if_neg (by omega : ¬ 255 < 2)]
  split
  · rename_i e he
    rw [he]
    rfl
  · rename_i he
    rw [he]
    rfl
  · rename_i inner he
    rw [he]
    simp [parse_fulfillment_dispatch, DResult.bind]

/-- Claim C2: under the mixed-mode dialect, a threshold buffer decodes
successfully only into a `Threshold` whose count is the first content byte of
a leading sentinel `Preimage` fulfillment, with the sentinel discarded and
the subcondition sequence being the remaining fulfillments in order followed
by the decoded conditions coerced through `to_anon` in order; and if the
first decoded fulfillment is not a `Preimage`, decoding fails with the
incorrect-mixed-mode-threshold-condition error. -/
theorem C2_mixed_mode_threshold (cb : ByteBuf) (flags : Nat)
    (hm : flags &&& MIXED_MODE ≠ 0) :
    (∀ c, decode_fulfillment (.enc [.unknown 2 cb]) flags = .ok c →
       ∃ inner s0 ffills s1 conds t pre,
         from_buf cb = .ok inner ∧
         Parser.container 0 inner = .ok s0 ∧
         many_fulfillments s0.1 flags = .ok ffills ∧
         Parser.container 1 s0.2 = .ok s1 ∧
         many_conditions s1.1 flags = .ok conds ∧
         ffills.head? = some (.Preimage (t :: pre)) ∧
         c = .Threshold t (ffills.tail ++ conds.map Condition.to_anon)) ∧
    (∀ inner s0 ffills s1 conds f0,
       from_buf cb = .ok inner →
       Parser.container 0 inner = .ok s0 →
       many_fulfillments s0.1 flags = .ok ffills →
       Parser.container 1 s0.2 = .ok s1 →
       many_conditions s1.1 flags = .ok conds →
       s1.2 = [] →
       ffills.head? = some f0 →
       (∀ bs, f0 ≠ .Preimage bs) →
       decode_fulfillment (.enc [.unknown 2 cb]) flags =
         .err "incorrect mixed mode threshold condition") := by
  constructor
  · intro c h
    rw [decode_fulfillment_single, parse_fulfillment_block_unknown2] at h
    obtain ⟨inner, hfb, h⟩ := DResult.bind_ok h
    obtain ⟨x, hx, h2⟩ := DResult.bind_ok h
    obtain ⟨u, hu, h3⟩ := DResult.map_ok h2
    rw [parse_threshold_of_mixed hm] at hx
    obtain ⟨s0, ffills, s1, conds, hc0, hmf, hc1, hconds, hnil, htail⟩ :=
      parse_threshold_mixed_ok hx
    obtain ⟨t, pre, hhead, hbound, hxeq⟩ := threshold_mixed_tail_ok htail
    exact ⟨inner, s0, ffills, s1, conds, t, pre, hfb, hc0, hmf, hc1, hconds,
      hhead, by rw [← h3, hxeq]⟩
  · intro inner s0 ffills s1 conds f0 hfb hc0 hmf hc1 hconds hnil hhead hnp
    rw [decode_fulfillment_single, parse_fulfillment_block_unknown2, hfb]
    simp only [DResult.bind]
    rw [parse_threshold_of_mixed hm,
      parse_threshold_mixed_eval hc0 hmf hc1 hconds hnil]
    cases ffills with
    | nil => simp at hhead
    | cons f0x frest =>
      simp only [List.head?_cons, Option.some.injEq] at hhead
      subst hhead
      cases f0x with
      | Preimage pre => exact absurd rfl (hnp pre)
      | Secp256k1 pk sg => simp [threshold_mixed_tail, DResult.bind]
      | Secp256k1Hash ph pk sg => simp [threshold_mixed_tail, DResult.bind]
      | Threshold tt ss => simp [threshold_mixed_tail, DResult.bind]
      | Eval code => simp [threshold_mixed_tail, DResult.bind]
      | Anon a1 a2 a3 a4 => simp [threshold_mixed_tail, DResult.bind]

/-- Witness for C2: a concrete mixed-mode buffer (sentinel preimage byte 2,
two further preimage fulfillments, one compact condition) decodes and the
structure theorem applies to it. -/
theorem C2_mixed_mode_threshold_witness :
    ∃ inner s0 ffills s1 conds t pre,
      from_buf (.enc [.unknown 0 (.enc
          [.unknown 0 (.enc [.unknown 0 (.raw [2])]),
           .unknown 0 (.enc [.unknown 0 (.raw [7])]),
           .unknown 0 (.enc [.unknown 0 (.raw [9])])]),
        .unknown 1 (.enc [.unknown 0 (.enc [.unknown 0 (.raw [1]),
          .unknown 1 (.raw [5])])])]) = .ok inner ∧
      Parser.container 0 inner = .ok s0 ∧
      many_fulfillments s0.1 1 = .ok ffills ∧
      Parser.container 1 s0.2 = .ok s1 ∧
      many_conditions s1.1 1 = .ok conds ∧
      ffills.head? = some (.Preimage (t :: pre)) ∧
      (Condition.Threshold 2 [.Preimage [7], .Preimage [9],
         .Anon .PreimageType [1] 5 []]) =
        .Threshold t (ffills.tail ++ conds.map Condition.to_anon) :=
  (C2_mixed_mode_threshold (.enc [.unknown 0 (.enc
      [.unknown 0 (.enc [.unknown 0 (.raw [2])]),
       .unknown 0 (.enc [.unknown 0 (.raw [7])]),
       .unknown 0 (.enc [.unknown 0 (.raw [9])])]),
    .unknown 1 (.enc [.unknown 0 (.enc [.unknown 0 (.raw [1]),
      .unknown 1 (.raw [5])])])]) 1 (by decide)).1
    (.Threshold 2 [.Preimage [7], .Preimage [9],
      .Anon .PreimageType [1] 5 []])
    (by simp [decode_fulfillment, parse_fulfillment_block,
    parse_fulfillment_dispatch, parse_threshold,
      parse_threshold_mixed, threshold_mixed_tail, many_fulfillments,
      many_conditions, parse_condition, parse_preimage, from_buf, Parser.any,
      Parser.buf, Parser.lpop, Parser.end_, Parser.container, DResult.bind,
      DResult.map, ByteBuf.toBytes, condition_type_from_id, pad_fingerprint,
      from_signed_bytes_be, int_to_u64, bytesBEtoNat,
      ConditionType.has_subtypes, MIXED_MODE, unpack_set, Condition.to_anon])

/-- Claim C3: in mixed-mode threshold decoding, a sentinel byte `t` strictly
greater than (number of remaining fulfillments) plus (number of conditions)
makes decoding fail with the incorrect-mixed-mode-threshold-value error, and
an empty fulfillment sequence makes it fail with the no-fulfillments
error. -/
theorem C3_mixed_mode_threshold_errors (cb : ByteBuf) (flags : Nat)
    (hm : flags &&& MIXED_MODE ≠ 0) :
    (∀ inner s0 ffills s1 conds t pre,
       from_buf cb = .ok inner →
       Parser.container 0 inner = .ok s0 →
       many_fulfillments s0.1 flags = .ok ffills →
       Parser.container 1 s0.2 = .ok s1 →
       many_conditions s1.1 flags = .ok conds →
       s1.2 = [] →
       ffills.head? = some (.Preimage (t :: pre)) →
       ffills.tail.length + conds.length < t →
       decode_fulfillment (.enc [.unknown 2 cb]) flags =
         .err "incorrect mixed mode threshold value") ∧
    (∀ inner s0 s1 conds,
       from_buf cb = .ok inner →
       Parser.container 0 inner = .ok s0 →
       many_fulfillments s0.1 flags = .ok [] →
       Parser.container 1 s0.2 = .ok s1 →
       many_conditions s1.1 flags = .ok conds →
       s1.2 = [] →
       decode_fulfillment (.enc [.unknown 2 cb]) flags =
         .err "no fulfillments") := by
  constructor
  · intro inner s0 ffills s1 conds t pre hfb hc0 hmf hc1 hconds hnil hhead
      hbig
    rw [decode_fulfillment_single, parse_fulfillment_block_unknown2, hfb]
    simp only [DResult.bind]
    rw [parse_threshold_of_mixed hm,
      parse_threshold_mixed_eval hc0 hmf hc1 hconds hnil]
    cases ffills with
    | nil => simp at hhead
    | cons f0x frest =>
      simp only [List.head?_cons, Option.some.injEq] at hhead
      subst hhead
      simp only [List.tail_cons] at hbig
      simp [threshold_mixed_tail, DResult.bind, if_pos hbig]
  · intro inner s0 s1 conds hfb hc0 hmf hc1 hconds hnil
    rw [decode_fulfillment_single, parse_fulfillment_block_unknown2, hfb]
    simp only [DResult.bind]
    rw [parse_threshold_of_mixed hm,
      parse_threshold_mixed_eval hc0 hmf hc1 hconds hnil]
    simp [threshold_mixed_tail, DResult.bind]

/-- Witness for C3: sentinel byte 3 with one remaining fulfillment and one
condition fails with the range error; an empty fulfillment container fails
with the no-fulfillments error. -/
theorem C3_mixed_mode_threshold_errors_witness :
    decode_fulfillment (.enc [.unknown 2 (.enc [.unknown 0 (.enc
        [.unknown 0 (.enc [.unknown 0 (.raw [3])]),
         .unknown 0 (.enc [.unknown 0 (.raw [7])])]),
      .unknown 1 (.enc [.unknown 0 (.enc [.unknown 0 (.raw [1]),
        .unknown 1 (.raw [5])])])])]) 1 =
      .err "incorrect mixed mode threshold value" ∧
    decode_fulfillment (.enc [.unknown 2 (.enc [.unknown 0 (.enc []),
      .unknown 1 (.enc [])])]) 1 = .err "no fulfillments" := by
  constructor
  · exact (C3_mixed_mode_threshold_errors (.enc [.unknown 0 (.enc
        [.unknown 0 (.enc [.unknown 0 (.raw [3])]),
         .unknown 0 (.enc [.unknown 0 (.raw [7])])]),
      .unknown 1 (.enc [.unknown 0 (.enc [.unknown 0 (.raw [1]),
        .unknown 1 (.raw [5])])])]) 1 (by decide)).1
      [.unknown 0 (.enc
        [.unknown 0 (.enc [.unknown 0 (.raw [3])]),
         .unknown 0 (.enc [.unknown 0 (.raw [7])])]),
       .unknown 1 (.enc [.unknown 0 (.enc [.unknown 0 (.raw [1]),
         .unknown 1 (.raw [5])])])]
      ([.unknown 0 (.enc [.unknown 0 (.raw [3])]),
        .unknown 0 (.enc [.unknown 0 (.raw [7])])], [.unknown 1 (.enc
          [.unknown 0 (.enc [.unknown 0 (.raw [1]),
            .unknown 1 (.raw [5])])])])
      [.Preimage [3], .Preimage [7]]
      ([.unknown 0 (.enc [.unknown 0 (.raw [1]), .unknown 1 (.raw [5])])],
        [])
      [.Anon .PreimageType [1] 5 []] 3 []
      (by rfl)
      (by simp [Parser.container, Parser.lpop, from_buf, DResult.bind,
        DResult.map])
      (by simp [many_fulfillments, parse_fulfillment_block,
    parse_fulfillment_dispatch, parse_preimage,
        from_buf, Parser.buf, Parser.lpop, Parser.end_, DResult.bind,
        DResult.map, ByteBuf.toBytes])
      (by simp [Parser.container, Parser.lpop, from_buf, DResult.bind,
        DResult.map])
      (by simp [many_conditions, parse_condition, from_buf, Parser.any,
        Parser.buf, Parser.lpop, Parser.end_, DResult.bind, DResult.map,
        ByteBuf.toBytes, condition_type_from_id, pad_fingerprint,
        from_signed_bytes_be, int_to_u64, bytesBEtoNat,
        ConditionType.has_subtypes, unpack_set])
      (by rfl)
      (by rfl)
      (by decide)
  · exact (C3_mixed_mode_threshold_errors (.enc [.unknown 0 (.enc []),
      .unknown 1 (.enc [])]) 1 (by decide)).2
      [.unknown 0 (.enc []), .unknown 1 (.enc [])]
      ([], [.unknown 1 (.enc [])]) ([], []) []
      (by rfl)
      (by simp [Parser.container, Parser.lpop, from_buf, DResult.bind,
        DResult.map])
      (by simp [many_fulfillments])
      (by simp [Parser.container, Parser.lpop, from_buf, DResult.bind,
        DResult.map])
      (by simp [many_conditions])
      (by rfl)

/-- Claim C9: in mixed-mode threshold decoding, when the first decoded
fulfillment is a `Preimage` whose byte sequence is empty, the decoder panics
(the Rust index `preimage[0]` is out of bounds) instead of returning a
decode error; when the sentinel preimage is non-empty the decoder never
panics at this site. -/
theorem C9_empty_sentinel_panics (cb : ByteBuf) (flags : Nat)
    (hm : flags &&& MIXED_MODE ≠ 0) :
    (∀ inner s0 ffills s1 conds,
       from_buf cb = .ok inner →
       Parser.container 0 inner = .ok s0 →
       many_fulfillments s0.1 flags = .ok ffills →
       Parser.container 1 s0.2 = .ok s1 →
       many_conditions s1.1 flags = .ok conds →
       s1.2 = [] →
       ffills.head? = some (.Preimage []) →
       decode_fulfillment (.enc [.unknown 2 cb]) flags = .panic) ∧
    (∀ inner s0 ffills s1 conds t pre,
       from_buf cb = .ok inner →
       Parser.container 0 inner = .ok s0 →
       many_fulfillments s0.1 flags = .ok ffills →
       Parser.container 1 s0.2 = .ok s1 →
       many_conditions s1.1 flags = .ok conds →
       s1.2 = [] →
       ffills.head? = some (.Preimage (t :: pre)) →
       decode_fulfillment (.enc [.unknown 2 cb]) flags ≠ .panic) := by
  constructor
  · intro inner s0 ffills s1 conds hfb hc0 hmf hc1 hconds hnil hhead
    rw [decode_fulfillment_single, parse_fulfillment_block_unknown2, hfb]
    simp only [DResult.bind]
    rw [parse_threshold_of_mixed hm,
      parse_threshold_mixed_eval hc0 hmf hc1 hconds hnil]
    cases ffills with
    | nil => simp at hhead
    | cons f0x frest =>
      simp only [List.head?_cons, Option.some.injEq] at hhead
      subst hhead
      simp [threshold_mixed_tail, DResult.bind]
  · intro inner s0 ffills s1 conds t pre hfb hc0 hmf hc1 hconds hnil hhead
    rw [decode_fulfillment_single, parse_fulfillment_block_unknown2, hfb]
    simp only [DResult.bind]
    rw [parse_threshold_of_mixed hm,
      parse_threshold_mixed_eval hc0 hmf hc1 hconds hnil]
    cases ffills with
    | nil => simp at hhead
    | cons f0x frest =>
      simp only [List.head?_cons, Option.some.injEq] at hhead
      subst hhead
      by_cases hcmp : frest.length + conds.length < t
      · simp [threshold_mixed_tail, DResult.bind, if_pos hcmp]
      · simp [threshold_mixed_tail, DResult.bind, if_neg hcmp, Parser.end_,
          DResult.map]

/-- Witness for C9: an empty sentinel preimage followed by one fulfillment
makes the decoder panic, while the same buffer with a one-byte sentinel does
not panic. -/
theorem C9_empty_sentinel_panics_witness :
    decode_fulfillment (.enc [.unknown 2 (.enc [.unknown 0 (.enc
        [.unknown 0 (.enc [.unknown 0 (.raw [])]),
         .unknown 0 (.enc [.unknown 0 (.raw [7])])]),
      .unknown 1 (.enc [])])]) 1 = .panic ∧
    decode_fulfillment (.enc [.unknown 2 (.enc [.unknown 0 (.enc
        [.unknown 0 (.enc [.unknown 0 (.raw [1])]),
         .unknown 0 (.enc [.unknown 0 (.raw [7])])]),
      .unknown 1 (.enc [])])]) 1 ≠ .panic := by
  constructor
  · exact (C9_empty_sentinel_panics (.enc [.unknown 0 (.enc
        [.unknown 0 (.enc [.unknown 0 (.raw [])]),
         .unknown 0 (.enc [.unknown 0 (.raw [7])])]),
      .unknown 1 (.enc [])]) 1 (by decide)).1
      [.unknown 0 (.enc
        [.unknown 0 (.enc [.unknown 0 (.raw [])]),
         .unknown 0 (.enc [.unknown 0 (.raw [7])])]),
       .unknown 1 (.enc [])]
      ([.unknown 0 (.enc [.unknown 0 (.raw [])]),
        .unknown 0 (.enc [.unknown 0 (.raw [7])])], [.unknown 1 (.enc [])])
      [.Preimage [], .Preimage [7]]
      ([], []) []
      (by rfl)
      (by simp [Parser.container, Parser.lpop, from_buf, DResult.bind,
        DResult.map])
      (by simp [many_fulfillments, parse_fulfillment_block,
    parse_fulfillment_dispatch, parse_preimage,
        from_buf, Parser.buf, Parser.lpop, Parser.end_, DResult.bind,
        DResult.map, ByteBuf.toBytes])
      (by simp [Parser.container, Parser.lpop, from_buf, DResult.bind,
        DResult.map])
      (by simp [many_conditions])
      (by rfl)
      (by rfl)
  · exact (C9_empty_sentinel_panics (.enc [.unknown 0 (.enc
        [.unknown 0 (.enc [.unknown 0 (.raw [1])]),
         .unknown 0 (.enc [.unknown 0 (.raw [7])])]),
      .unknown 1 (.enc [])]) 1 (by decide)).2
      [.unknown 0 (.enc
        [.unknown 0 (.enc [.unknown 0 (.raw [1])]),
         .unknown 0 (.enc [.unknown 0 (.raw [7])])]),
       .unknown 1 (.enc [])]
      ([.unknown 0 (.enc [.unknown 0 (.raw [1])]),
        .unknown 0 (.enc [.unknown 0 (.raw [7])])], [.unknown 1 (.enc [])])
      [.Preimage [1], .Preimage [7]]
      ([], []) [] 1 []
      (by rfl)
      (by simp [Parser.container, Parser.lpop, from_buf, DResult.bind,
        DResult.map])
      (by simp [many_fulfillments, parse_fulfillment_block,
    parse_fulfillment_dispatch, parse_preimage,
        from_buf, Parser.buf, Parser.lpop, Parser.end_, DResult.bind,
        DResult.map, ByteBuf.toBytes])
      (by simp [Parser.container, Parser.lpop, from_buf, DResult.bind,
        DResult.map])
      (by simp [many_conditions])
      (by rfl)
      (by rfl)

/-- Claim C1, behavior of the code at the claim's own instance (n = 2,
m = 3): each supplied fulfillment and each supplied compact condition is
individually decodable, the standard-dialect case with a single condition
succeeds exactly as the claim describes, yet the buffer with three conditions
is rejected with the leftover-elements error — `parse_condition`
(decoding.rs:142) asserts the shared condition-container parser empty after
consuming its first element, so `many(parse_condition)` can only ever return
zero or one condition.  This contradicts the claim for every m ≥ 2. -/
theorem C1_threshold_two_three_rejected :
    decode_fulfillment (.enc [preimageFulfillmentBlock]) 0 =
      .ok (.Preimage [7]) ∧
    decode_condition (.enc [compactConditionBlock]) =
      .ok (.Anon .PreimageType [1] 5 []) ∧
    decode_fulfillment (.enc [.unknown 2 (.enc
      [.unknown 0 (.enc [preimageFulfillmentBlock,
         preimageFulfillmentBlock]),
       .unknown 1 (.enc [compactConditionBlock])])]) 0 =
      .ok (.Threshold 2 [.Preimage [7], .Preimage [7],
        .Anon .PreimageType [1] 5 []]) ∧
    decode_fulfillment thresholdTwoThreeBuf 0 =
      .err "ASN has leftover elements\n" := by
  refine ⟨?_, ?_, ?_, ?_⟩ <;>
    simp [thresholdTwoThreeBuf, preimageFulfillmentBlock,
      compactConditionBlock, decode_fulfillment, decode_condition,
      parse_fulfillment_block,
    parse_fulfillment_dispatch, parse_threshold, parse_threshold_mixed,
      threshold_mixed_tail, many_fulfillments, many_conditions,
      parse_condition, parse_preimage, from_buf, Parser.any, Parser.buf,
      Parser.lpop, Parser.end_, Parser.container, DResult.bind, DResult.map,
      ByteBuf.toBytes, condition_type_from_id, pad_fingerprint,
      from_signed_bytes_be, int_to_u64, bytesBEtoNat,
      ConditionType.has_subtypes, MIXED_MODE, unpack_set]

theorem many_conditions_cons_eval {a : Asn1Block} {l : List Asn1Block}
    {flags : Nat} {x : Condition × List Asn1Block}
    (h : parse_condition (a :: l) flags = .ok x) :
    many_conditions (a :: l) flags =
      (many_conditions x.2 flags).map (fun cs => x.1 :: cs) := by
  conv_lhs => rw [many_conditions.eq_def]
  split
  case h_1 h2 =>
    simp at h2
  case h_2 x0 b2 l2 h2 =>
    injection h2 with hb hl
    subst hb
    subst hl
    split
    case h_1 x2 he =>
      rw [h] at he
      injection he with h3
      subst h3
      rfl
    case h_2 e2 he =>
      rw [h] at he
      simp at he
    case h_3 he =>
      rw [h] at he
      simp at he

theorem many_conditions_cons_err {a : Asn1Block} {l : List Asn1Block}
    {flags : Nat} {e : String}
    (h : parse_condition (a :: l) flags = .err e) :
    many_conditions (a :: l) flags = .err e := by
  unfold many_conditions
  split
  · rename_i x2 h2
    rw [h] at h2
    simp at h2
  · rename_i e2 h2
    rw [h] at h2
    injection h2 with h3
    rw [h3]
  · rename_i h2
    rw [h] at h2
    simp at h2

theorem many_conditions_cons_panic {a : Asn1Block} {l : List Asn1Block}
    {flags : Nat} (h : parse_condition (a :: l) flags = .panic) :
    many_conditions (a :: l) flags = .panic := by
  unfold many_conditions
  split
  · rename_i x2 h2
    rw [h] at h2
    simp at h2
  · rename_i e2 h2
    rw [h] at h2
    simp at h2
  · rfl

/-- `parse_condition` never reads its `_flags` argument (decoding.rs:139), so
`many(parse_condition)` is independent of the flags word. -/
theorem many_conditions_flags (p : List Asn1Block) (f1 f2 : Nat) :
    many_conditions p f1 = many_conditions p f2 := by
  cases p with
  | nil => simp [many_conditions]
  | cons a l =>
    have hpc : parse_condition (a :: l) f2 = parse_condition (a :: l) f1 :=
      rfl
    rcases h : parse_condition (a :: l) f1 with x | e | _
    · have hx : x.2 = [] :=
        parse_condition_ok_rest
          (show parse_condition (a :: l) f1 = .ok (x.1, x.2) by rw [h])
      rw [many_conditions_cons_eval h, many_conditions_cons_eval
        (hpc.trans h), hx]
      simp [many_conditions]
    · rw [many_conditions_cons_err h, many_conditions_cons_err
        (hpc.trans h)]
    · rw [many_conditions_cons_panic h, many_conditions_cons_panic
        (hpc.trans h)]

/-- Full unfolding of `parse_fulfillment_block` on a tagged element, for any
tokenizer outcome on the content bytes. -/
theorem parse_fulfillment_block_unknown_eq (tid : Nat) (cb : ByteBuf)
    (flags : Nat) :
    parse_fulfillment_block (.unknown tid cb) flags =
      if 255 < tid then .err "Invalid type id"
      else
        (from_buf cb).bind fun inner =>
          (parse_fulfillment_dispatch tid inner flags).bind fun x =>
            (Parser.end_ x.2).map fun _ => x.1 := by
  unfold parse_fulfillment_block
  by_cases h : 255 < tid
  · rw [if_pos h, if_pos h]
  · rw [if_neg h, if_neg h]
    split
    · rename_i e he
      rw [he]
      rfl
    · rename_i he
      rw [he]
      rfl
    · rename_i inner he
      rw [he]
      rfl

/-- Bind-normal form of the standard threshold dialect. -/
theorem parse_threshold_standard_unfold {p : List Asn1Block} {flags : Nat}
    (hm : flags &&& MIXED_MODE = 0) :
    parse_threshold p flags =
      (Parser.container 0 p).bind fun s0 =>
      (many_fulfillments s0.1 flags).bind fun ffills =>
      (Parser.container 1 s0.2).bind fun s1 =>
      (many_conditions s1.1 flags).bind fun conds =>
      (Parser.end_ s1.2).bind fun _ =>
      .ok (.Threshold (ffills.length % 65536) (ffills ++ conds), s1.2) := by
  unfold parse_threshold
  rw [if_neg (by simp [hm])]
  split
  case h_1 e he =>
    rw [he]
    rfl
  case h_2 he =>
    rw [he]
    rfl
  case h_3 s0 he =>
    rw [he]
    simp only [DResult.bind]
    rcases he1 : many_fulfillments s0.1 flags with ffills | e | _
    case ok =>
      dsimp only
      split <;> rename_i he2 <;> rw [he2]
    case err => rfl
    case panic => rfl

/-- Bind-normal form of the mixed threshold dialect. -/
theorem parse_threshold_mixed_unfold (p : List Asn1Block) (flags : Nat) :
    parse_threshold_mixed p flags =
      (Parser.container 0 p).bind fun s0 =>
      (many_fulfillments s0.1 flags).bind fun ffills =>
      (Parser.container 1 s0.2).bind fun s1 =>
      (many_conditions s1.1 flags).bind fun conds =>
      (Parser.end_ s1.2).bind fun _ =>
      threshold_mixed_tail ffills conds s1.2 := by
  unfold parse_threshold_mixed
  split
  case h_1 e he =>
    rw [he]
    rfl
  case h_2 he =>
    rw [he]
    rfl
  case h_3 s0 he =>
    rw [he]
    simp only [DResult.bind]
    rcases he1 : many_fulfillments s0.1 flags with ffills | e | _
    case ok =>
      dsimp only
      split <;> rename_i he2 <;> rw [he2]
    case err => rfl
    case panic => rfl

/-- The decoder reads its `flags` word only through the test
`flags & MIXED_MODE != 0` (decoding.rs:196), so any two flag words agreeing
on the `MIXED_MODE` bit make `parse_fulfillment` behave identically.  Proved
by the mutual functional induction of the decoder. -/
theorem parse_fulfillment_block_flags :
    ∀ (b : Asn1Block) (flags : Nat), ∀ g : Nat,
      flags &&& MIXED_MODE = g &&& MIXED_MODE →
      parse_fulfillment_block b flags = parse_fulfillment_block b g := by
  refine parse_fulfillment_block.induct
    (fun b flags => ∀ g, flags &&& MIXED_MODE = g &&& MIXED_MODE →
      parse_fulfillment_block b flags = parse_fulfillment_block b g)
    (fun tid p flags => ∀ g, flags &&& MIXED_MODE = g &&& MIXED_MODE →
      parse_fulfillment_dispatch tid p flags =
        parse_fulfillment_dispatch tid p g)
    (fun p flags => ∀ g, flags &&& MIXED_MODE = g &&& MIXED_MODE →
      parse_threshold p flags = parse_threshold p g)
    (fun p flags => ∀ g, flags &&& MIXED_MODE = g &&& MIXED_MODE →
      many_fulfillments p flags = many_fulfillments p g)
    (fun p flags => ∀ g, flags &&& MIXED_MODE = g &&& MIXED_MODE →
      parse_threshold_mixed p flags = parse_threshold_mixed p g)
    ?_ ?_ ?_ ?_ ?_ ?_ ?_ ?_ ?_ ?_ ?_ ?_ ?_ ?_ ?_ ?_ ?_ ?_ ?_ ?_ ?_ ?_ ?_ ?_
    ?_ ?_ ?_ ?_
  · intro flags a g hg
    simp [parse_fulfillment_block]
  · intro flags tid c h255 g hg
    rw [parse_fulfillment_block_unknown_eq, parse_fulfillment_block_unknown_eq,
      if_pos h255, if_pos h255]
  · intro flags tid c h255 e hfb g hg
    rw [parse_fulfillment_block_unknown_eq, parse_fulfillment_block_unknown_eq,
      if_neg h255, if_neg h255, hfb]
    simp only [DResult.bind]
  · intro flags tid c h255 hfb g hg
    rw [parse_fulfillment_block_unknown_eq, parse_fulfillment_block_unknown_eq,
      if_neg h255, if_neg h255, hfb]
    simp only [DResult.bind]
  · intro flags tid c h255 inner hfb IH g hg
    rw [parse_fulfillment_block_unknown_eq, parse_fulfillment_block_unknown_eq,
      if_neg h255, if_neg h255, hfb]
    simp only [DResult.bind]
    rw [IH g hg]
  · intro p flags g hg
    simp [parse_fulfillment_dispatch]
  · intro p flags IH g hg
    simp only [parse_fulfillment_dispatch]
    exact IH g hg
  · intro p flags g hg
    simp [parse_fulfillment_dispatch]
  · intro p flags g hg
    simp [parse_fulfillment_dispatch]
  · intro p flags g hg
    simp [parse_fulfillment_dispatch]
  · intro tid p flags h0 h2 h5 h6 h15 g hg
    unfold parse_fulfillment_dispatch
    split <;> try rfl
    exact absurd rfl h2
  · intro p flags hm IH g hg
    have hmg : g &&& MIXED_MODE ≠ 0 := by
      rw [← hg]
      exact hm
    rw [parse_threshold_of_mixed hm, parse_threshold_of_mixed hmg]
    exact IH g hg
  · intro p flags hnm e hc0 g hg
    have hm0 : flags &&& MIXED_MODE = 0 := not_ne_iff.mp hnm
    have hmg0 : g &&& MIXED_MODE = 0 := by
      rw [← hg]
      exact hm0
    rw [parse_threshold_standard_unfold hm0,
      parse_threshold_standard_unfold hmg0, hc0]
    simp only [DResult.bind]
  · intro p flags hnm hc0 g hg
    have hm0 : flags &&& MIXED_MODE = 0 := not_ne_iff.mp hnm
    have hmg0 : g &&& MIXED_MODE = 0 := by
      rw [← hg]
      exact hm0
    rw [parse_threshold_standard_unfold hm0,
      parse_threshold_standard_unfold hmg0, hc0]
    simp only [DResult.bind]
  · intro p flags hnm s1 hc0 e hmf IH g hg
    have hm0 : flags &&& MIXED_MODE = 0 := not_ne_iff.mp hnm
    have hmg0 : g &&& MIXED_MODE = 0 := by
      rw [← hg]
      exact hm0
    rw [parse_threshold_standard_unfold hm0,
      parse_threshold_standard_unfold hmg0, hc0]
    simp only [DResult.bind]
    rw [← IH g hg, hmf]
  · intro p flags hnm s1 hc0 hmf IH g hg
    have hm0 : flags &&& MIXED_MODE = 0 := not_ne_iff.mp hnm
    have hmg0 : g &&& MIXED_MODE = 0 := by
      rw [← hg]
      exact hm0
    rw [parse_threshold_standard_unfold hm0,
      parse_threshold_standard_unfold hmg0, hc0]
    simp only [DResult.bind]
    rw [← IH g hg, hmf]
  · intro p flags hnm s1 hc0 ffills hmf e hc1 IH g hg
    have hm0 : flags &&& MIXED_MODE = 0 := not_ne_iff.mp hnm
    have hmg0 : g &&& MIXED_MODE = 0 := by
      rw [← hg]
      exact hm0
    rw [parse_threshold_standard_unfold hm0,
      parse_threshold_standard_unfold hmg0, hc0]
    simp only [DResult.bind]
    rw [← IH g hg, hmf]
    simp only [DResult.bind]
    rw [hc1]
  · intro p flags hnm s1 hc0 ffills hmf hc1 IH g hg
    have hm0 : flags &&& MIXED_MODE = 0 := not_ne_iff.mp hnm
    have hmg0 : g &&& MIXED_MODE = 0 := by
      rw [← hg]
      exact hm0
    rw [parse_threshold_standard_unfold hm0,
      parse_threshold_standard_unfold hmg0, hc0]
    simp only [DResult.bind]
    rw [← IH g hg, hmf]
    simp only [DResult.bind]
    rw [hc1]
  · intro p flags hnm s1 hc0 ffills hmf s11 hc1 IH g hg
    have hm0 : flags &&& MIXED_MODE = 0 := not_ne_iff.mp hnm
    have hmg0 : g &&& MIXED_MODE = 0 := by
      rw [← hg]
      exact hm0
    rw [parse_threshold_standard_unfold hm0,
      parse_threshold_standard_unfold hmg0, hc0]
    simp only [DResult.bind]
    rw [← IH g hg, hmf]
    simp only [DResult.bind]
    rw [hc1]
    simp only [DResult.bind]
    rw [many_conditions_flags s11.1 flags g]
  · intro flags g hg
    simp [many_fulfillments]
  · intro flags b bs IH1 IH2 g hg
    simp only [many_fulfillments]
    rw [IH1 g hg, IH2 g hg]
  · intro p flags e hc0 g hg
    rw [parse_threshold_mixed_unfold, parse_threshold_mixed_unfold, hc0]
    simp only [DResult.bind]
  · intro p flags hc0 g hg
    rw [parse_threshold_mixed_unfold, parse_threshold_mixed_unfold, hc0]
    simp only [DResult.bind]
  · intro p flags s1 hc0 e hmf IH g hg
    rw [parse_threshold_mixed_unfold, parse_threshold_mixed_unfold, hc0]
    simp only [DResult.bind]
    rw [← IH g hg, hmf]
  · intro p flags s1 hc0 hmf IH g hg
    rw [parse_threshold_mixed_unfold, parse_threshold_mixed_unfold, hc0]
    simp only [DResult.bind]
    rw [← IH g hg, hmf]
  · intro p flags s1 hc0 ffills hmf e hc1 IH g hg
    rw [parse_threshold_mixed_unfold, parse_threshold_mixed_unfold, hc0]
    simp only [DResult.bind]
    rw [← IH g hg, hmf]
    simp only [DResult.bind]
    rw [hc1]
  · intro p flags s1 hc0 ffills hmf hc1 IH g hg
    rw [parse_threshold_mixed_unfold, parse_threshold_mixed_unfold, hc0]
    simp only [DResult.bind]
    rw [← IH g hg, hmf]
    simp only [DResult.bind]
    rw [hc1]
  · intro p flags s1 hc0 ffills hmf s11 hc1 IH g hg
    rw [parse_threshold_mixed_unfold, parse_threshold_mixed_unfold, hc0]
    simp only [DResult.bind]
    rw [← IH g hg, hmf]
    simp only [DResult.bind]
    rw [hc1]
    simp only [DResult.bind]
    rw [many_conditions_flags s11.1 flags g]

/-- Claim C8: for every input buffer and every pair of flag words agreeing on
the `MIXED_MODE` bit, `decode_fulfillment` gives identical results — all flag
bits other than `MIXED_MODE` are ignored, never rejected. -/
theorem C8_flags_other_bits_ignored (buf : ByteBuf) (f1 f2 : Nat)
    (h : f1 &&& MIXED_MODE = f2 &&& MIXED_MODE) :
    decode_fulfillment buf f1 = decode_fulfillment buf f2 := by
  cases buf with
  | raw bs => cases bs <;> simp [decode_fulfillment, from_buf]
  | enc blocks =>
    cases blocks with
    | nil => simp [decode_fulfillment, from_buf]
    | cons b rest =>
      have hb := parse_fulfillment_block_flags b f1 f2 h
      simp only [decode_fulfillment, from_buf, hb]

/-- Witness for C8: flag words 0 and 2 (standard dialect) and 1 and 3 (mixed
dialect) decode a concrete buffer identically. -/
theorem C8_flags_other_bits_ignored_witness :
    decode_fulfillment (.enc [.unknown 0 (.enc [.unknown 0 (.raw [7])])]) 0 =
      decode_fulfillment (.enc [.unknown 0 (.enc [.unknown 0 (.raw [7])])])
        2 ∧
    decode_fulfillment (.enc [.unknown 0 (.enc [.unknown 0 (.raw [7])])]) 1 =
      decode_fulfillment (.enc [.unknown 0 (.enc [.unknown 0 (.raw [7])])])
        3 :=
  ⟨C8_flags_other_bits_ignored
      (.enc [.unknown 0 (.enc [.unknown 0 (.raw [7])])]) 0 2 (by decide),
   C8_flags_other_bits_ignored
      (.enc [.unknown 0 (.enc [.unknown 0 (.raw [7])])]) 1 3 (by decide)⟩
